import Mathlib

/-! Launch glue of the GMIC-Qt plug-in (`src/gmic_qt.cpp`).

A shallow embedding of `GmicQt::gmicVersionString`, `GmicQt::pluginDialogWasAccepted`,
`GmicQt::launchPlugin`, `configureApplication` and `disableModes`.

`launchPlugin` is effectful: it talks to Qt and to classes of the plug-in
(`DialogSettings`, `Logger`, `HeadlessProcessor`, `ProgressInfoWindow`, `MainWindow`,
`InOutPanel`, ...), none of which is defined in this file of the repository.  It is embedded
as a function on an explicit state:

* every call to a collaborator is appended to a trace, together with the value it returned;
* the value a collaborator returns is taken from an `Env`, as a function of all the
  collaborator calls made so far in the process (so collaborators are deterministic but
  otherwise arbitrary, and they may remember everything that was done to them);
* the file-static flag `pluginProcessingValidAndAccepted` is a field of the state, and each
  assignment to it is recorded in the trace too;
* automatic objects are destroyed, in reverse order of construction, when control leaves the
  block that declares them; these destructor calls are recorded like any other call.
-/

namespace GmicQt

/-! ## Types declared in headers -/

/-- Modelled from the spec: the enumeration `GmicQt::UserInterfaceMode` is declared in
`gmic_qt.h`, which is absent. The three enumerators are the ones `launchPlugin` compares its
argument with; `unlisted` stands for every other value an object of the enumeration type can
hold (the value for which all three comparisons fail). -/
inductive UserInterfaceMode where
  | NoGUI
  | ProgressDialogGUI
  | FullGUI
  | unlisted
  deriving DecidableEq, Repr

/-- Modelled from the spec: `GmicQt::InputMode` is declared in `gmic_qt.h`, which is absent;
a value is represented by its underlying integer. -/
structure InputMode where
  raw : Int
  deriving DecidableEq, Repr

/-- Modelled from the spec: `GmicQt::OutputMode` is declared in `gmic_qt.h`, which is absent;
a value is represented by its underlying integer. -/
structure OutputMode where
  raw : Int
  deriving DecidableEq, Repr

/-- Modelled from the spec: `GmicQt::PreviewMode` is declared in `gmic_qt.h`, which is absent;
a value is represented by its underlying integer. -/
structure PreviewMode where
  raw : Int
  deriving DecidableEq, Repr

/-- Modelled from the spec: `GmicQt::OutputMessageMode` is declared in `gmic_qt.h`, which is
absent; a value is represented by its underlying integer. -/
structure OutputMessageMode where
  raw : Int
  deriving DecidableEq, Repr

/-- Modelled from the spec: the application kinds `GmicQt::NonGuiApplication` and
`GmicQt::GuiApplication` passed to `DialogSettings::loadSettings` (declared in an absent
header). -/
inductive ApplicationType where
  | NonGuiApplication
  | GuiApplication
  deriving DecidableEq, Repr

/-- Modelled from the spec: the parameter bundle `GmicQt::PluginParameters` (declared in
`gmic_qt.h`, absent), with the six members `launchPlugin` reads or could read. -/
structure PluginParameters where
  command : String
  inputMode : InputMode
  outputMode : OutputMode
  previewMode : PreviewMode
  disabledInputModes : List InputMode
  disabledOutputModes : List OutputMode
  disabledPreviewModes : List PreviewMode
  deriving DecidableEq, Repr

/-! ## Collaborator calls and effects -/

/-- The automatic objects `launchPlugin` declares (named after the variables). -/
inductive Obj where
  | coreApp
  | guiApp
  | headlessProcessor
  | processor
  | progressWindow
  | mainWindow
  deriving DecidableEq, Repr

/-- One call to a collaborator, with its arguments and, for a call whose result
`launchPlugin` uses, the value returned. -/
inductive Call where
  | SetErrorMode
  | NSGetExecutablePath (result : Option String) (size : Nat)
  | printf (format : String) (arg : Option String)
  | fprintfStderr (format : String) (arg : Nat)
  | realpath (name : String) (result : Option String)
  | dirname (path : String) (result : Option String)
  | getenv (name : String) (result : Option String)
  | setenv (name : String) (value : String) (overwrite : Int)
  | disableInputMode (mode : InputMode)
  | disableOutputMode (mode : OutputMode)
  | disablePreviewMode (mode : PreviewMode)
  | newQCoreApplication (argc : Int) (argv : List String)
  | newQApplication (argc : Int) (argv : List String)
  | setWindowIcon (resource : String)
  | setOrganizationName (name : String)
  | setOrganizationDomain (name : String)
  | setApplicationName (name : String)
  | setAttributeDontUseNativeMenuBar
  | loadSettings (applicationType : ApplicationType)
  | outputMessageMode (result : OutputMessageMode)
  | loggerSetMode (mode : OutputMessageMode)
  | installTranslators
  | newHeadlessProcessor (command : String) (inputMode : InputMode) (outputMode : OutputMode)
  | newHeadlessProcessorLast
  | newProgressInfoWindow
  | newMainWindow
  | singleShot (msec : Int) (receiver : Obj) (member : String)
  | command (result : String)
  | startProcessing
  | settingsValue (key : String) (defaultValue : Bool) (result : Bool)
  | showMaximized
  | showWindow
  | exec (windowed : Bool) (status : Int)
  | processingCompletedProperly (receiver : Obj) (result : Bool)
  | isAccepted (result : Bool)
  | destroy (object : Obj)
  deriving DecidableEq, Repr

/-- An observable effect of `launchPlugin`: a collaborator call, or an assignment to the
file-static variable `pluginProcessingValidAndAccepted`. -/
inductive Effect where
  | call (c : Call)
  | assign (value : Bool)
  deriving DecidableEq, Repr

/-- The collaborator call of an effect, if it is one. -/
def Effect.call? : Effect → Option Call
  | .call c => some c
  | .assign _ => none

/-- The value assigned by an effect, if it is an assignment to the flag. -/
def Effect.assign? : Effect → Option Bool
  | .call _ => none
  | .assign b => some b

/-- The platform selected at build time by `_IS_WINDOWS_` / `_IS_MACOS_`, which decides the
conditional blocks of `launchPlugin`. -/
inductive Platform where
  | generic
  | windows
  | macos
  deriving DecidableEq, Repr

/-- Everything `launchPlugin` depends on that is defined outside `gmic_qt.cpp`: the
preprocessor constants of `Globals.h` and of the build, and the answers of the collaborators.
Each answer is a function of the collaborator calls made so far in the process, oldest
first. -/
structure Env where
  /-- Preprocessor constant `GMIC_QT_APPLICATION_NAME`. -/
  applicationName : String
  /-- Preprocessor constant `GMIC_QT_ORGANISATION_NAME`. -/
  organisationName : String
  /-- Preprocessor constant `GMIC_QT_ORGANISATION_DOMAIN`. -/
  organisationDomain : String
  /-- Which of `_IS_WINDOWS_`, `_IS_MACOS_` is defined. -/
  platform : Platform
  /-- Path stored by `_NSGetExecutablePath` when it returns 0, `none` when it does not. -/
  executablePath : List Call → Option String
  /-- Value `_NSGetExecutablePath` leaves in `size`. -/
  executablePathSize : List Call → Nat
  /-- Result of `realpath`, `none` for a null pointer. -/
  realpath : List Call → Option String
  /-- Result of `dirname`, `none` for a null pointer. -/
  dirname : List Call → Option String
  /-- Result of `getenv`, `none` for a null pointer. -/
  getenv : List Call → Option String
  /-- Result of `DialogSettings::outputMessageMode()`. -/
  outputMessageMode : List Call → OutputMessageMode
  /-- Result of `HeadlessProcessor::command()`. -/
  command : List Call → String
  /-- Result of `QSettings().value("Config/MainWindowMaximized", false).toBool()`. -/
  mainWindowMaximized : List Call → Bool
  /-- Exit status returned by `QCoreApplication::exec()` / `QApplication::exec()`. -/
  exec : List Call → Int
  /-- Result of `HeadlessProcessor::processingCompletedProperly()`. -/
  processingCompletedProperly : List Call → Bool
  /-- Result of `MainWindow::isAccepted()`. -/
  isAccepted : List Call → Bool

/-! ## State -/

/-- State of the process between two calls of `launchPlugin`: the file-static flag and the
collaborator calls made so far. -/
structure Process where
  pluginProcessingValidAndAccepted : Bool
  history : List Call
  deriving DecidableEq, Repr

/-- State at process start: `bool pluginProcessingValidAndAccepted = false;` (line 55) and no
collaborator call made yet. -/
def Process.start : Process :=
  { pluginProcessingValidAndAccepted := false, history := [] }

/-- State of one invocation of `launchPlugin` in progress. -/
structure Run where
  /-- Current value of the file-static flag. -/
  pluginProcessingValidAndAccepted : Bool
  /-- Collaborator calls made before this invocation began. -/
  past : List Call
  /-- Effects of this invocation so far, oldest first. -/
  effects : List Effect
  deriving DecidableEq, Repr

/-- Collaborator calls made by this invocation so far. -/
def Run.calls (r : Run) : List Call :=
  r.effects.filterMap Effect.call?

/-- All collaborator calls made so far in the process. -/
def Run.history (r : Run) : List Call :=
  r.past ++ r.calls

/-- Perform a collaborator call. -/
def Run.call (r : Run) (c : Call) : Run :=
  { r with effects := r.effects ++ [Effect.call c] }

/-- Assign to `pluginProcessingValidAndAccepted`. -/
def Run.assign (r : Run) (value : Bool) : Run :=
  { r with pluginProcessingValidAndAccepted := value
           effects := r.effects ++ [Effect.assign value] }

/-- An invocation that begins in process state `s`. -/
def Run.begin (s : Process) : Run :=
  { pluginProcessingValidAndAccepted := s.pluginProcessingValidAndAccepted,
    past := s.history, effects := [] }

/-- What a finished invocation leaves: the status returned and the final state. -/
structure Outcome where
  status : Int
  run : Run
  deriving DecidableEq, Repr

/-- Process state after the invocation returned. -/
def Outcome.process (o : Outcome) : Process :=
  { pluginProcessingValidAndAccepted := o.run.pluginProcessingValidAndAccepted,
    history := o.run.history }

/-- Effects of the invocation, oldest first. -/
def Outcome.effects (o : Outcome) : List Effect :=
  o.run.effects

/-! ## `gmicVersionString` (lines 69-73) -/

/-- Source `gmicVersionString`:
`QString("%1.%2.%3").arg(gmic_version / 100).arg((gmic_version / 10) % 10).arg(gmic_version % 10)`.
The preprocessor constant `gmic_version` (from `gmic.h`, absent) is the parameter; `/` and `%`
on `int` truncate towards zero; `arg` substitutes the decimal rendering for the
lowest-numbered place marker. -/
def gmicVersionString (gmic_version : Int) : String :=
  toString (gmic_version.tdiv 100) ++ "." ++ toString ((gmic_version.tdiv 10).tmod 10) ++ "."
    ++ toString (gmic_version.tmod 10)

/-! ## `pluginDialogWasAccepted` (lines 81-84) -/

/-- Source `pluginDialogWasAccepted`: `return pluginProcessingValidAndAccepted;`. -/
def pluginDialogWasAccepted (s : Process) : Bool :=
  s.pluginProcessingValidAndAccepted

/-! ## `configureApplication` (lines 182-188) -/

/-- Source `configureApplication`. -/
def configureApplication (env : Env) (r : Run) : Run :=
  let r := r.call (.setOrganizationName env.organisationName)
  let r := r.call (.setOrganizationDomain env.organisationDomain)
  let r := r.call (.setApplicationName env.applicationName)
  r.call .setAttributeDontUseNativeMenuBar

/-! ## `disableModes` (lines 190-203) -/

/-- Source `disableModes`: three range-based `for` loops. -/
def disableModes (disabledInputModes : List InputMode) (disabledOutputModes : List OutputMode)
    (disabledPreviewModes : List PreviewMode) (r : Run) : Run :=
  let r := disabledInputModes.foldl (fun r mode => r.call (.disableInputMode mode)) r
  let r := disabledOutputModes.foldl (fun r mode => r.call (.disableOutputMode mode)) r
  disabledPreviewModes.foldl (fun r mode => r.call (.disablePreviewMode mode)) r

/-! ## `launchPlugin` (lines 86-177) -/

/-- The C string `std::string::c_str()` hands to a `const char *` parameter: the characters
before the first NUL. -/
def c_str (s : String) : String :=
  String.mk (s.data.takeWhile (fun c => c != Char.ofNat 0))

/-- Lines 91-128 of `launchPlugin`: the platform blocks. Returns `fullexname` as it stands at
line 126 (`none` for `nullptr`).  The `strncpy`/`strncat` calls into the 2048-byte buffer
`pluginpath` copy at most 2047 characters each; the text composed is the one obtained when the
buffer is large enough for it, and `dirname` is taken to leave its argument unchanged. -/
def platformSetup (env : Env) (r : Run) : Option String × Run :=
  match env.platform with
  | .generic => (none, r)
  | .windows => (none, r.call .SetErrorMode)
  | .macos =>
    let exname := env.executablePath r.history
    let size := env.executablePathSize r.history
    let r := r.call (.NSGetExecutablePath exname size)
    let (fullexname, r) :=
      match exname with
      | some exname =>
        let r := r.call (.printf "Executable path is [%s]\n" (some exname))
        let fullexname := env.realpath r.history
        let r := r.call (.realpath exname fullexname)
        let r := r.call (.printf "Full executable name is [%s]\n" fullexname)
        match fullexname with
        | some name =>
          let fullpath := env.dirname r.history
          let r := r.call (.dirname name fullpath)
          let r := r.call (.printf "Full executable path is [%s]\n" fullpath)
          match fullpath with
          | some path =>
            let pluginpath := path.take 2047
            let pluginpath := pluginpath ++ "/GMIC/plugins/:".take 2047
            let envpath := env.getenv r.history
            let r := r.call (.getenv "QT_PLUGIN_PATH" envpath)
            let pluginpath :=
              match envpath with
              | some e => pluginpath ++ e.take 2047
              | none => pluginpath
            let r := r.call (.printf "Plugins path is [%s]\n" (some pluginpath))
            let r := r.call (.setenv "QT_PLUGIN_PATH" pluginpath 1)
            (some name, r)
          | none => (some name, r)
        | none => (none, r)
      | none => (none, r.call (.fprintfStderr "Buffer too small; need size %u\n" size))
    (fullexname, r.call (.setenv "QT_DEBUG_PLUGINS" "1" 1))

/-- Source `launchPlugin`, started in process state `s`. -/
def launchPlugin (env : Env) (interfaceMode : UserInterfaceMode) (parameters : PluginParameters)
    (s : Process) : Outcome :=
  let r := Run.begin s
  let dummy_argc : Int := 1
  let dummy_app_name := env.applicationName
  let (fullexname, r) := platformSetup env r
  let fullexname := match fullexname with
    | some name => name
    | none => dummy_app_name
  let dummy_argv := [fullexname]
  let r := disableModes parameters.disabledInputModes parameters.disabledOutputModes
    parameters.disabledPreviewModes r
  match interfaceMode with
  | .NoGUI =>
    let r := r.call (.newQCoreApplication dummy_argc dummy_argv)
    let r := configureApplication env r
    let r := r.call (.loadSettings .NonGuiApplication)
    let mode := env.outputMessageMode r.history
    let r := r.call (.outputMessageMode mode)
    let r := r.call (.loggerSetMode mode)
    let r := r.call (.newHeadlessProcessor (c_str parameters.command) parameters.inputMode
      parameters.outputMode)
    let r := r.call (.singleShot 0 .headlessProcessor "startProcessing()")
    let status := env.exec r.history
    let r := r.call (.exec false status)
    let completed := env.processingCompletedProperly r.history
    let r := r.call (.processingCompletedProperly .headlessProcessor completed)
    let r := r.assign completed
    let r := r.call (.destroy .headlessProcessor)
    let r := r.call (.destroy .coreApp)
    { status := status, run := r }
  | .ProgressDialogGUI =>
    let r := r.call (.newQApplication dummy_argc dummy_argv)
    let r := r.call (.setWindowIcon ":resources/gmic_hat.png")
    let r := configureApplication env r
    let r := r.call (.loadSettings .GuiApplication)
    let mode := env.outputMessageMode r.history
    let r := r.call (.outputMessageMode mode)
    let r := r.call (.loggerSetMode mode)
    let r := r.call .installTranslators
    let r := r.call .newHeadlessProcessorLast
    let r := r.call .newProgressInfoWindow
    let command := env.command r.history
    let r := r.call (.command command)
    if command.isEmpty then
      let r := r.assign false
      let r := r.call (.destroy .progressWindow)
      let r := r.call (.destroy .processor)
      let r := r.call (.destroy .guiApp)
      { status := 0, run := r }
    else
      let r := r.call .startProcessing
      let status := env.exec r.history
      let r := r.call (.exec true status)
      let completed := env.processingCompletedProperly r.history
      let r := r.call (.processingCompletedProperly .processor completed)
      let r := r.assign completed
      let r := r.call (.destroy .progressWindow)
      let r := r.call (.destroy .processor)
      let r := r.call (.destroy .guiApp)
      { status := status, run := r }
  | .FullGUI =>
    let r := r.call (.newQApplication dummy_argc dummy_argv)
    let r := r.call (.setWindowIcon ":resources/gmic_hat.png")
    let r := configureApplication env r
    let r := r.call (.loadSettings .GuiApplication)
    let r := r.call .installTranslators
    let r := r.call .newMainWindow
    let maximized := env.mainWindowMaximized r.history
    let r := r.call (.settingsValue "Config/MainWindowMaximized" false maximized)
    let r := if maximized then r.call .showMaximized else r.call .showWindow
    let status := env.exec r.history
    let r := r.call (.exec true status)
    let accepted := env.isAccepted r.history
    let r := r.call (.isAccepted accepted)
    let r := r.assign accepted
    let r := r.call (.destroy .mainWindow)
    let r := r.call (.destroy .guiApp)
    { status := status, run := r }
  | .unlisted => { status := 0, run := r }

/-! ## Vocabulary for the properties -/

/-- Calls of the platform blocks (lines 91-125). -/
def Call.isPlatformCall : Call → Bool
  | .SetErrorMode => true
  | .NSGetExecutablePath _ _ => true
  | .printf _ _ => true
  | .fprintfStderr _ _ => true
  | .realpath _ _ => true
  | .dirname _ _ => true
  | .getenv _ _ => true
  | .setenv _ _ _ => true
  | _ => false

/-- Calls to `InOutPanel::disableInputMode`, `disableOutputMode`, `disablePreviewMode`. -/
def Call.isDisableMode : Call → Bool
  | .disableInputMode _ => true
  | .disableOutputMode _ => true
  | .disablePreviewMode _ => true
  | _ => false

/-- Constructions of an application object, a processor, a progress window or a main window. -/
def Call.isConstruction : Call → Bool
  | .newQCoreApplication _ _ => true
  | .newQApplication _ _ => true
  | .newHeadlessProcessor _ _ _ => true
  | .newHeadlessProcessorLast => true
  | .newProgressInfoWindow => true
  | .newMainWindow => true
  | _ => false

/-- Entries into the event loop. -/
def Call.isExec : Call → Bool
  | .exec _ _ => true
  | _ => false

/-- The calls `disableModes` makes for three lists of modes. -/
def disableCalls (parameters : PluginParameters) : List Call :=
  parameters.disabledInputModes.map Call.disableInputMode
    ++ parameters.disabledOutputModes.map Call.disableOutputMode
    ++ parameters.disabledPreviewModes.map Call.disablePreviewMode

/-- Run `r2` continues `r1` by collaborator calls that all satisfy `P`, leaving the flag as
it was. -/
def Run.ExtendsBy (P : Call → Bool) (r1 r2 : Run) : Prop :=
  ∃ pre : List Call,
    r2 = { r1 with effects := r1.effects ++ pre.map Effect.call } ∧ ∀ c ∈ pre, P c = true

/-- The acceptance flag left by outcome `o`, begun in state `s`, is the answer to `query`,
asked right after the event loop returned and answered by `oracle`, and `construction` was
made earlier in the same invocation. -/
def AcceptanceReadAfterLoop (o : Outcome) (s : Process) (query : Bool → Call)
    (oracle : List Call → Bool) (construction : Call) : Prop :=
  ∃ (before : List Call) (after : List Effect) (windowed : Bool) (status : Int),
    o.effects = before.map Effect.call
        ++ [.call (.exec windowed status), .call (query (pluginDialogWasAccepted o.process)),
            .assign (pluginDialogWasAccepted o.process)]
        ++ after
      ∧ construction ∈ before
      ∧ (∀ c ∈ before, c.isExec = false)
      ∧ pluginDialogWasAccepted o.process = oracle (s.history ++ before ++ [.exec windowed status])

/-- The invocation assigns the flag exactly once, and that assignment is its last effect. -/
def AssignsOnceAsLastEffect (o : Outcome) : Prop :=
  ∃ (before : List Effect) (value : Bool),
    o.effects = before ++ [.assign value] ∧ ∀ e ∈ before, e.assign? = none

/-- Value of one decimal digit character. -/
def digitValue (c : Char) : Nat :=
  c.toNat - 48

/-- Value of a list of decimal digit characters, most significant first. -/
def decodeDigits (l : List Char) : Nat :=
  l.foldl (fun a c => 10 * a + digitValue c) 0

/-- The fields of a text, separated at each dot. -/
def splitAtDots : List Char → List (List Char)
  | [] => [[]]
  | c :: cs =>
    if c = Char.ofNat 46 then [] :: splitAtDots cs
    else
      match splitAtDots cs with
      | [] => [[c]]
      | field :: fields => (c :: field) :: fields

/-- An unsigned decimal numeral: at least one character, decimal digits only, and no leading
zero unless the numeral is the single digit zero. -/
def isNumeral (l : List Char) : Bool :=
  !l.isEmpty && l.all Char.isDigit && (l.length == 1 || l.head? != some (Char.ofNat 48))

/-- What a reader of a version string recovers: the text must be exactly three numerals
separated by two dots, and the result is their three values. -/
def readVersion (s : String) : Option (Nat × Nat × Nat) :=
  match splitAtDots s.data with
  | [major, minor, patch] =>
    if isNumeral major && isNumeral minor && isNumeral patch then
      some (decodeDigits major, decodeDigits minor, decodeDigits patch)
    else none
  | _ => none

/-! ## Concrete collaborators for the examples -/

/-- Collaborators on a generic platform: the processor restored from the last execution reports
`lastCommand`, the event loop exits with status 0, processing completes properly, and the main
window reports `accepted`. -/
def exampleEnv (lastCommand : String) (accepted : Bool) : Env :=
  { applicationName := "gmic_qt"
    organisationName := "GREYC"
    organisationDomain := "greyc.fr"
    platform := .generic
    executablePath := fun _ => none
    executablePathSize := fun _ => 0
    realpath := fun _ => none
    dirname := fun _ => none
    getenv := fun _ => none
    outputMessageMode := fun _ => ⟨0⟩
    command := fun _ => lastCommand
    mainWindowMaximized := fun _ => false
    exec := fun _ => 0
    processingCompletedProperly := fun _ => true
    isAccepted := fun _ => accepted }

/-- A parameter bundle with a command and one disabled mode of each kind. -/
def exampleParameters (command : String) : PluginParameters :=
  { command := command
    inputMode := ⟨1⟩
    outputMode := ⟨0⟩
    previewMode := ⟨0⟩
    disabledInputModes := [⟨0⟩, ⟨2⟩]
    disabledOutputModes := [⟨3⟩]
    disabledPreviewModes := [⟨1⟩] }

/-- A bundle with the same disabled modes as `exampleParameters`, no command, and other
input, output and preview modes. -/
def otherParameters : PluginParameters :=
  { command := ""
    inputMode := ⟨5⟩
    outputMode := ⟨2⟩
    previewMode := ⟨3⟩
    disabledInputModes := [⟨0⟩, ⟨2⟩]
    disabledOutputModes := [⟨3⟩]
    disabledPreviewModes := [⟨1⟩] }

/-- Collaborators on a generic platform whose processor, restored from the last execution,
holds the command "sharpen 1"; the event loop exits with status 5 and processing completes
properly. -/
def storedCommandEnv : Env :=
  { applicationName := "gmic_qt"
    organisationName := "GREYC"
    organisationDomain := "greyc.fr"
    platform := .generic
    executablePath := fun _ => none
    executablePathSize := fun _ => 0
    realpath := fun _ => none
    dirname := fun _ => none
    getenv := fun _ => none
    outputMessageMode := fun _ => ⟨0⟩
    command := fun _ => "sharpen 1"
    mainWindowMaximized := fun _ => false
    exec := fun _ => 5
    processingCompletedProperly := fun _ => true
    isAccepted := fun _ => false }

/-- Collaborators on a generic platform whose processor holds no command when it is first
asked, and holds "sharpen 1" once an event loop has run in the process. -/
def emptyAtFirstEnv : Env :=
  { applicationName := "gmic_qt"
    organisationName := "GREYC"
    organisationDomain := "greyc.fr"
    platform := .generic
    executablePath := fun _ => none
    executablePathSize := fun _ => 0
    realpath := fun _ => none
    dirname := fun _ => none
    getenv := fun _ => none
    outputMessageMode := fun _ => ⟨0⟩
    command := fun history => if history.any Call.isExec then "sharpen 1" else ""
    mainWindowMaximized := fun _ => false
    exec := fun _ => 0
    processingCompletedProperly := fun _ => true
    isAccepted := fun _ => true }

/-! ## Structural lemmas -/

theorem Run.ExtendsBy.refl (P : Call → Bool) (r : Run) : Run.ExtendsBy P r r :=
  ⟨[], by simp, by simp⟩

theorem Run.ExtendsBy.step {P : Call → Bool} {r1 r2 : Run} (c : Call) (hc : P c = true)
    (h : Run.ExtendsBy P r1 r2) : Run.ExtendsBy P r1 (r2.call c) := by
  obtain ⟨pre, rfl, hpre⟩ := h
  refine ⟨pre ++ [c], by simp [Run.call], ?_⟩
  intro d hd
  rcases List.mem_append.mp hd with hd | hd
  · exact hpre d hd
  · simp only [List.mem_singleton] at hd
    subst hd
    exact hc

theorem foldl_call_eq {α : Type} (f : α → Call) (l : List α) (r : Run) :
    l.foldl (fun r mode => r.call (f mode)) r
      = { r with effects := r.effects ++ (l.map f).map Effect.call } := by
  induction l generalizing r with
  | nil => simp
  | cons a l ih => rw [List.foldl_cons, ih]; simp [Run.call]

theorem disableModes_eq (parameters : PluginParameters) (r : Run) :
    disableModes parameters.disabledInputModes parameters.disabledOutputModes
        parameters.disabledPreviewModes r
      = { r with effects := r.effects ++ (disableCalls parameters).map Effect.call } := by
  simp [disableModes, foldl_call_eq, disableCalls]

theorem platformSetup_extends (env : Env) (r : Run) :
    Run.ExtendsBy Call.isPlatformCall r (platformSetup env r).2 := by
  unfold platformSetup
  cases env.platform with
  | generic => exact Run.ExtendsBy.refl _ _
  | windows => exact Run.ExtendsBy.step _ rfl (Run.ExtendsBy.refl _ _)
  | macos =>
    simp only []
    generalize env.executablePath r.history = exname
    generalize env.executablePathSize r.history = size
    cases exname with
    | none =>
      simp only []
      repeat (first | refine Run.ExtendsBy.step _ rfl ?_ | exact Run.ExtendsBy.refl _ _)
    | some exname =>
      simp only []
      generalize env.realpath _ = fullexname
      cases fullexname with
      | none =>
        simp only []
        repeat (first | refine Run.ExtendsBy.step _ rfl ?_ | exact Run.ExtendsBy.refl _ _)
      | some name =>
        simp only []
        generalize env.dirname _ = fullpath
        cases fullpath with
        | none =>
          simp only []
          repeat (first | refine Run.ExtendsBy.step _ rfl ?_ | exact Run.ExtendsBy.refl _ _)
        | some path =>
          simp only []
          generalize env.getenv _ = envpath
          repeat (first | refine Run.ExtendsBy.step _ rfl ?_ | exact Run.ExtendsBy.refl _ _)

theorem filterMap_call_map (l : List Call) :
    List.filterMap (Effect.call? ∘ Effect.call) l = l := by
  induction l with
  | nil => rfl
  | cons a l ih => simp [Effect.call?, ih]

/-- The platform blocks neither read nor write the flag. -/
theorem platformSetup_flag (env : Env) (r : Run) (b : Bool) :
    platformSetup env { r with pluginProcessingValidAndAccepted := b }
      = ((platformSetup env r).1,
          { (platformSetup env r).2 with pluginProcessingValidAndAccepted := b }) := by
  unfold platformSetup
  cases env.platform with
  | generic => rfl
  | windows => rfl
  | macos =>
    simp only [Run.history, Run.calls, Run.call]
    generalize env.executablePath _ = exname
    generalize env.executablePathSize _ = size
    cases exname with
    | none => rfl
    | some exname =>
      simp only []
      generalize env.realpath _ = fullexname
      cases fullexname with
      | none => rfl
      | some name =>
        simp only []
        generalize env.dirname _ = fullpath
        cases fullpath with
        | none => rfl
        | some path => rfl

/-- Lines 88-128 of `launchPlugin`, started after `history`: the name left in `fullexname` and
the calls made are the same whatever the flag is. -/
theorem platformSetup_begin (env : Env) (history : List Call) :
    ∃ (name : Option String) (pre : List Call), (∀ c ∈ pre, c.isPlatformCall = true) ∧
      ∀ flag, platformSetup env
          (Run.begin { pluginProcessingValidAndAccepted := flag, history := history })
        = (name, { pluginProcessingValidAndAccepted := flag, past := history,
                   effects := pre.map Effect.call }) := by
  obtain ⟨pre, hr, hpre⟩ := platformSetup_extends env
    (Run.begin { pluginProcessingValidAndAccepted := false, history := history })
  rcases hps : platformSetup env
    (Run.begin { pluginProcessingValidAndAccepted := false, history := history }) with ⟨name, r0⟩
  rw [hps] at hr
  simp only at hr
  subst hr
  refine ⟨name, pre, hpre, fun flag => ?_⟩
  have h := platformSetup_flag env
    (Run.begin { pluginProcessingValidAndAccepted := false, history := history }) flag
  rw [hps] at h
  simpa [Run.begin] using h

/-- Lines 86-131 of `launchPlugin` followed by the final `return 0;`, for every value of the
flag. -/
theorem launchPlugin_unlisted_eq_all (env : Env) (p : PluginParameters) (history : List Call) :
    ∃ pre : List Call, (∀ c ∈ pre, c.isPlatformCall = true) ∧
      ∀ flag, launchPlugin env .unlisted p
          { pluginProcessingValidAndAccepted := flag, history := history } =
        { status := 0,
          run := { pluginProcessingValidAndAccepted := flag,
                   past := history,
                   effects := (pre ++ disableCalls p).map Effect.call } } := by
  obtain ⟨name, pre, hpre, hps⟩ := platformSetup_begin env history
  refine ⟨pre, hpre, fun flag => ?_⟩
  unfold launchPlugin
  simp only [hps flag, disableModes_eq]
  simp

/-- The `NoGUI` branch (lines 132-142), written out, for every value of the flag. -/
theorem launchPlugin_NoGUI_eq_all (env : Env) (p : PluginParameters) (history : List Call) :
    ∃ (argv0 : String) (pre setup : List Call) (m : OutputMessageMode) (status : Int)
      (completed : Bool),
      (∀ c ∈ pre, c.isPlatformCall = true) ∧
      setup = pre ++ disableCalls p ++
        [.newQCoreApplication 1 [argv0], .setOrganizationName env.organisationName,
         .setOrganizationDomain env.organisationDomain, .setApplicationName env.applicationName,
         .setAttributeDontUseNativeMenuBar, .loadSettings .NonGuiApplication,
         .outputMessageMode m, .loggerSetMode m,
         .newHeadlessProcessor (c_str p.command) p.inputMode p.outputMode,
         .singleShot 0 .headlessProcessor "startProcessing()"] ∧
      status = env.exec (history ++ setup) ∧
      completed = env.processingCompletedProperly (history ++ setup ++ [.exec false status]) ∧
      ∀ flag, launchPlugin env .NoGUI p
          { pluginProcessingValidAndAccepted := flag, history := history } =
        { status := status,
          run := { pluginProcessingValidAndAccepted := completed,
                   past := history,
                   effects := setup.map Effect.call ++
                     [.call (.exec false status),
                      .call (.processingCompletedProperly .headlessProcessor completed),
                      .assign completed,
                      .call (.destroy .headlessProcessor), .call (.destroy .coreApp)] } } := by
  obtain ⟨name, pre, hpre, hps⟩ := platformSetup_begin env history
  refine ⟨name.getD env.applicationName, pre, _,
    env.outputMessageMode (history ++ (pre ++ disableCalls p ++
      [.newQCoreApplication 1 [name.getD env.applicationName],
       .setOrganizationName env.organisationName,
       .setOrganizationDomain env.organisationDomain, .setApplicationName env.applicationName,
       .setAttributeDontUseNativeMenuBar, .loadSettings .NonGuiApplication])),
    _, _, hpre, rfl, rfl, rfl, fun flag => ?_⟩
  unfold launchPlugin
  simp only [hps flag, disableModes_eq]
  cases name <;>
    simp [configureApplication, Run.call, Run.assign, Run.history, Run.calls,
      filterMap_call_map, List.filterMap_append, Effect.call?]

/-- The `ProgressDialogGUI` branch (lines 143-159), written out, for every value of the
flag. -/
theorem launchPlugin_ProgressDialogGUI_eq_all (env : Env) (p : PluginParameters)
    (history : List Call) :
    ∃ (argv0 : String) (pre setup : List Call) (m : OutputMessageMode) (cmd : String)
      (status : Int) (completed : Bool),
      (∀ c ∈ pre, c.isPlatformCall = true) ∧
      setup = pre ++ disableCalls p ++
        [.newQApplication 1 [argv0], .setWindowIcon ":resources/gmic_hat.png",
         .setOrganizationName env.organisationName,
         .setOrganizationDomain env.organisationDomain, .setApplicationName env.applicationName,
         .setAttributeDontUseNativeMenuBar, .loadSettings .GuiApplication,
         .outputMessageMode m, .loggerSetMode m, .installTranslators,
         .newHeadlessProcessorLast, .newProgressInfoWindow] ∧
      cmd = env.command (history ++ setup) ∧
      status = env.exec (history ++ setup ++ [.command cmd, .startProcessing]) ∧
      completed = env.processingCompletedProperly
        (history ++ setup ++ [.command cmd, .startProcessing, .exec true status]) ∧
      ∀ flag, launchPlugin env .ProgressDialogGUI p
          { pluginProcessingValidAndAccepted := flag, history := history } =
        if cmd.isEmpty then
          { status := 0,
            run := { pluginProcessingValidAndAccepted := false,
                     past := history,
                     effects := setup.map Effect.call ++
                       [.call (.command cmd), .assign false,
                        .call (.destroy .progressWindow), .call (.destroy .processor),
                        .call (.destroy .guiApp)] } }
        else
          { status := status,
            run := { pluginProcessingValidAndAccepted := completed,
                     past := history,
                     effects := setup.map Effect.call ++
                       [.call (.command cmd), .call .startProcessing, .call (.exec true status),
                        .call (.processingCompletedProperly .processor completed),
                        .assign completed,
                        .call (.destroy .progressWindow), .call (.destroy .processor),
                        .call (.destroy .guiApp)] } } := by
  obtain ⟨name, pre, hpre, hps⟩ := platformSetup_begin env history
  refine ⟨name.getD env.applicationName, pre, _,
    env.outputMessageMode (history ++ (pre ++ disableCalls p ++
      [.newQApplication 1 [name.getD env.applicationName],
       .setWindowIcon ":resources/gmic_hat.png",
       .setOrganizationName env.organisationName,
       .setOrganizationDomain env.organisationDomain, .setApplicationName env.applicationName,
       .setAttributeDontUseNativeMenuBar, .loadSettings .GuiApplication])),
    _, _, _, hpre, rfl, rfl, rfl, rfl, fun flag => ?_⟩
  unfold launchPlugin
  simp only [hps flag, disableModes_eq]
  cases name <;>
    simp only [configureApplication, Run.call, Run.assign, Run.history, Run.calls,
      filterMap_call_map, List.filterMap_append, Effect.call?, List.filterMap_cons,
      List.filterMap_nil, List.append_assoc, List.nil_append, List.cons_append, List.map_append,
      List.map_cons, List.map_nil, List.filterMap_map, Option.getD_none, Option.getD_some]

/-- The `FullGUI` branch (lines 160-175), written out, for every value of the flag. -/
theorem launchPlugin_FullGUI_eq_all (env : Env) (p : PluginParameters) (history : List Call) :
    ∃ (argv0 : String) (pre setup : List Call) (maximized : Bool) (status : Int)
      (accepted : Bool),
      (∀ c ∈ pre, c.isPlatformCall = true) ∧
      maximized = env.mainWindowMaximized (history ++ pre ++ disableCalls p ++
        [.newQApplication 1 [argv0], .setWindowIcon ":resources/gmic_hat.png",
         .setOrganizationName env.organisationName,
         .setOrganizationDomain env.organisationDomain, .setApplicationName env.applicationName,
         .setAttributeDontUseNativeMenuBar, .loadSettings .GuiApplication,
         .installTranslators, .newMainWindow]) ∧
      setup = pre ++ disableCalls p ++
        [.newQApplication 1 [argv0], .setWindowIcon ":resources/gmic_hat.png",
         .setOrganizationName env.organisationName,
         .setOrganizationDomain env.organisationDomain, .setApplicationName env.applicationName,
         .setAttributeDontUseNativeMenuBar, .loadSettings .GuiApplication,
         .installTranslators, .newMainWindow,
         .settingsValue "Config/MainWindowMaximized" false maximized,
         if maximized then .showMaximized else .showWindow] ∧
      status = env.exec (history ++ setup) ∧
      accepted = env.isAccepted (history ++ setup ++ [.exec true status]) ∧
      ∀ flag, launchPlugin env .FullGUI p
          { pluginProcessingValidAndAccepted := flag, history := history } =
        { status := status,
          run := { pluginProcessingValidAndAccepted := accepted,
                   past := history,
                   effects := setup.map Effect.call ++
                     [.call (.exec true status), .call (.isAccepted accepted),
                      .assign accepted,
                      .call (.destroy .mainWindow), .call (.destroy .guiApp)] } } := by
  obtain ⟨name, pre, hpre, hps⟩ := platformSetup_begin env history
  refine ⟨name.getD env.applicationName, pre, _, _, _, _, hpre, rfl, rfl, rfl, rfl,
    fun flag => ?_⟩
  unfold launchPlugin
  simp only [hps flag, disableModes_eq]
  cases name <;>
    simp only [configureApplication, Run.call, Run.assign, Run.history, Run.calls,
      filterMap_call_map, List.filterMap_append, Effect.call?, List.filterMap_cons,
      List.filterMap_nil, List.append_assoc, List.nil_append, List.cons_append, List.map_append,
      List.map_cons, List.map_nil, List.filterMap_map, Option.getD_none, Option.getD_some] <;>
    split <;> simp_all [filterMap_call_map, Effect.call?]

/-- Lines 86-131 of `launchPlugin` followed by the final `return 0;`. -/
theorem launchPlugin_unlisted_eq (env : Env) (p : PluginParameters) (s : Process) :
    ∃ pre : List Call, (∀ c ∈ pre, c.isPlatformCall = true) ∧
      launchPlugin env .unlisted p s =
        { status := 0,
          run := { pluginProcessingValidAndAccepted := s.pluginProcessingValidAndAccepted,
                   past := s.history,
                   effects := (pre ++ disableCalls p).map Effect.call } } := by
  obtain ⟨pre, hpre, h⟩ := launchPlugin_unlisted_eq_all env p s.history
  exact ⟨pre, hpre, h s.pluginProcessingValidAndAccepted⟩

/-- The `NoGUI` branch (lines 132-142), written out. -/
theorem launchPlugin_NoGUI_eq (env : Env) (p : PluginParameters) (s : Process) :
    ∃ (argv0 : String) (pre setup : List Call) (m : OutputMessageMode) (status : Int)
      (completed : Bool),
      (∀ c ∈ pre, c.isPlatformCall = true) ∧
      setup = pre ++ disableCalls p ++
        [.newQCoreApplication 1 [argv0], .setOrganizationName env.organisationName,
         .setOrganizationDomain env.organisationDomain, .setApplicationName env.applicationName,
         .setAttributeDontUseNativeMenuBar, .loadSettings .NonGuiApplication,
         .outputMessageMode m, .loggerSetMode m,
         .newHeadlessProcessor (c_str p.command) p.inputMode p.outputMode,
         .singleShot 0 .headlessProcessor "startProcessing()"] ∧
      status = env.exec (s.history ++ setup) ∧
      completed = env.processingCompletedProperly (s.history ++ setup ++ [.exec false status]) ∧
      launchPlugin env .NoGUI p s =
        { status := status,
          run := { pluginProcessingValidAndAccepted := completed,
                   past := s.history,
                   effects := setup.map Effect.call ++
                     [.call (.exec false status),
                      .call (.processingCompletedProperly .headlessProcessor completed),
                      .assign completed,
                      .call (.destroy .headlessProcessor), .call (.destroy .coreApp)] } } := by
  obtain ⟨argv0, pre, setup, m, status, completed, h1, h2, h3, h4, h⟩ :=
    launchPlugin_NoGUI_eq_all env p s.history
  exact ⟨argv0, pre, setup, m, status, completed, h1, h2, h3, h4,
    h s.pluginProcessingValidAndAccepted⟩

/-- The `ProgressDialogGUI` branch (lines 143-159), written out. -/
theorem launchPlugin_ProgressDialogGUI_eq (env : Env) (p : PluginParameters) (s : Process) :
    ∃ (argv0 : String) (pre setup : List Call) (m : OutputMessageMode) (cmd : String)
      (status : Int) (completed : Bool),
      (∀ c ∈ pre, c.isPlatformCall = true) ∧
      setup = pre ++ disableCalls p ++
        [.newQApplication 1 [argv0], .setWindowIcon ":resources/gmic_hat.png",
         .setOrganizationName env.organisationName,
         .setOrganizationDomain env.organisationDomain, .setApplicationName env.applicationName,
         .setAttributeDontUseNativeMenuBar, .loadSettings .GuiApplication,
         .outputMessageMode m, .loggerSetMode m, .installTranslators,
         .newHeadlessProcessorLast, .newProgressInfoWindow] ∧
      cmd = env.command (s.history ++ setup) ∧
      status = env.exec (s.history ++ setup ++ [.command cmd, .startProcessing]) ∧
      completed = env.processingCompletedProperly
        (s.history ++ setup ++ [.command cmd, .startProcessing, .exec true status]) ∧
      launchPlugin env .ProgressDialogGUI p s =
        if cmd.isEmpty then
          { status := 0,
            run := { pluginProcessingValidAndAccepted := false,
                     past := s.history,
                     effects := setup.map Effect.call ++
                       [.call (.command cmd), .assign false,
                        .call (.destroy .progressWindow), .call (.destroy .processor),
                        .call (.destroy .guiApp)] } }
        else
          { status := status,
            run := { pluginProcessingValidAndAccepted := completed,
                     past := s.history,
                     effects := setup.map Effect.call ++
                       [.call (.command cmd), .call .startProcessing, .call (.exec true status),
                        .call (.processingCompletedProperly .processor completed),
                        .assign completed,
                        .call (.destroy .progressWindow), .call (.destroy .processor),
                        .call (.destroy .guiApp)] } } := by
  obtain ⟨argv0, pre, setup, m, cmd, status, completed, h1, h2, h3, h4, h5, h⟩ :=
    launchPlugin_ProgressDialogGUI_eq_all env p s.history
  exact ⟨argv0, pre, setup, m, cmd, status, completed, h1, h2, h3, h4, h5,
    h s.pluginProcessingValidAndAccepted⟩

/-- The `FullGUI` branch (lines 160-175), written out. -/
theorem launchPlugin_FullGUI_eq (env : Env) (p : PluginParameters) (s : Process) :
    ∃ (argv0 : String) (pre setup : List Call) (maximized : Bool) (status : Int)
      (accepted : Bool),
      (∀ c ∈ pre, c.isPlatformCall = true) ∧
      maximized = env.mainWindowMaximized (s.history ++ pre ++ disableCalls p ++
        [.newQApplication 1 [argv0], .setWindowIcon ":resources/gmic_hat.png",
         .setOrganizationName env.organisationName,
         .setOrganizationDomain env.organisationDomain, .setApplicationName env.applicationName,
         .setAttributeDontUseNativeMenuBar, .loadSettings .GuiApplication,
         .installTranslators, .newMainWindow]) ∧
      setup = pre ++ disableCalls p ++
        [.newQApplication 1 [argv0], .setWindowIcon ":resources/gmic_hat.png",
         .setOrganizationName env.organisationName,
         .setOrganizationDomain env.organisationDomain, .setApplicationName env.applicationName,
         .setAttributeDontUseNativeMenuBar, .loadSettings .GuiApplication,
         .installTranslators, .newMainWindow,
         .settingsValue "Config/MainWindowMaximized" false maximized,
         if maximized then .showMaximized else .showWindow] ∧
      status = env.exec (s.history ++ setup) ∧
      accepted = env.isAccepted (s.history ++ setup ++ [.exec true status]) ∧
      launchPlugin env .FullGUI p s =
        { status := status,
          run := { pluginProcessingValidAndAccepted := accepted,
                   past := s.history,
                   effects := setup.map Effect.call ++
                     [.call (.exec true status), .call (.isAccepted accepted),
                      .assign accepted,
                      .call (.destroy .mainWindow), .call (.destroy .guiApp)] } } := by
  obtain ⟨argv0, pre, setup, maximized, status, accepted, h1, h2, h3, h4, h5, h⟩ :=
    launchPlugin_FullGUI_eq_all env p s.history
  exact ⟨argv0, pre, setup, maximized, status, accepted, h1, h2, h3, h4, h5,
    h s.pluginProcessingValidAndAccepted⟩

/-- In the three listed modes the flag left by a call does not depend on the flag the call
found; only the final `return 0;` lets the old value through. -/
theorem launchPlugin_listed_flag_independent (env : Env) (interfaceMode : UserInterfaceMode)
    (parameters : PluginParameters) (history : List Call) (flag flag' : Bool)
    (hmode : interfaceMode ≠ .unlisted) :
    pluginDialogWasAccepted
        (launchPlugin env interfaceMode parameters
          { pluginProcessingValidAndAccepted := flag, history := history }).process
      = pluginDialogWasAccepted
        (launchPlugin env interfaceMode parameters
          { pluginProcessingValidAndAccepted := flag', history := history }).process := by
  cases interfaceMode with
  | NoGUI =>
    obtain ⟨_, _, _, _, _, _, -, -, -, -, h⟩ := launchPlugin_NoGUI_eq_all env parameters history
    rw [h flag, h flag']
  | ProgressDialogGUI =>
    obtain ⟨_, _, _, _, _, _, _, -, -, -, -, -, h⟩ :=
      launchPlugin_ProgressDialogGUI_eq_all env parameters history
    rw [h flag, h flag']
  | FullGUI =>
    obtain ⟨_, _, _, _, _, _, -, -, -, -, -, h⟩ :=
      launchPlugin_FullGUI_eq_all env parameters history
    rw [h flag, h flag']
  | unlisted => exact absurd rfl hmode

theorem disableCalls_isDisableMode (p : PluginParameters) (c : Call) (hc : c ∈ disableCalls p) :
    c.isDisableMode = true := by
  simp only [disableCalls, List.mem_append, List.mem_map] at hc
  rcases hc with (⟨m, _, rfl⟩ | ⟨m, _, rfl⟩) | ⟨m, _, rfl⟩ <;> rfl

/-- A call that is neither a platform call nor a mode-disabling call is not made by lines
86-131. -/
theorem not_mem_preamble {pre : List Call} (hpre : ∀ c ∈ pre, c.isPlatformCall = true)
    (p : PluginParameters) (c : Call) (h1 : c.isPlatformCall = false)
    (h2 : c.isDisableMode = false) : c ∉ pre ∧ c ∉ disableCalls p := by
  constructor
  · intro h
    rw [hpre c h] at h1
    exact Bool.noConfusion h1
  · intro h
    rw [disableCalls_isDisableMode p c h] at h2
    exact Bool.noConfusion h2

/-- The collaborator calls of a run whose effects are a list of calls followed by more
effects. -/
theorem calls_of_effects (flag : Bool) (past : List Call) (setup : List Call)
    (rest : List Effect) :
    Run.calls { pluginProcessingValidAndAccepted := flag, past := past,
                effects := setup.map Effect.call ++ rest }
      = setup ++ rest.filterMap Effect.call? := by
  simp [Run.calls, List.filterMap_append, filterMap_call_map]

/-- Counterexample to "progress-only mode with an empty command in the bundle returns 0 with
acceptance false and starts nothing": the bundle carries no command, the processor restored
from the last execution holds one, and the call starts processing, runs the event loop,
returns its status 5 and leaves the flag true. -/
theorem progress_dialog_runs_stored_command :
    (exampleParameters "").command = ""
      ∧ (launchPlugin storedCommandEnv .ProgressDialogGUI (exampleParameters "")
          Process.start).status = 5
      ∧ pluginDialogWasAccepted (launchPlugin storedCommandEnv .ProgressDialogGUI
          (exampleParameters "") Process.start).process = true
      ∧ Call.startProcessing ∈ (launchPlugin storedCommandEnv .ProgressDialogGUI
          (exampleParameters "") Process.start).run.calls
      ∧ Call.exec true 5 ∈ (launchPlugin storedCommandEnv .ProgressDialogGUI
          (exampleParameters "") Process.start).run.calls := by
  refine ⟨rfl, rfl, rfl, ?_, ?_⟩ <;> decide

/-- C1, amended: in `ProgressDialogGUI` mode, whatever the parameter bundle, when the answer
of `processor.command()` in this call is empty, `launchPlugin` returns 0,
`pluginDialogWasAccepted()` is false afterwards, and the call invokes neither
`startProcessing` nor the event loop. -/
theorem launchPlugin_progress_dialog_without_command (env : Env) (parameters : PluginParameters)
    (s : Process)
    (hcommand : ∃ cmd, Call.command cmd
        ∈ (launchPlugin env .ProgressDialogGUI parameters s).run.calls ∧ cmd.isEmpty = true) :
    (launchPlugin env .ProgressDialogGUI parameters s).status = 0
      ∧ pluginDialogWasAccepted (launchPlugin env .ProgressDialogGUI parameters s).process = false
      ∧ Call.startProcessing ∉ (launchPlugin env .ProgressDialogGUI parameters s).run.calls
      ∧ ∀ windowed status,
          Call.exec windowed status
            ∉ (launchPlugin env .ProgressDialogGUI parameters s).run.calls := by
  obtain ⟨argv0, pre, setup, m, cmd, status, completed, hpre, hsetup, hcmd, -, -, heq⟩ :=
    launchPlugin_ProgressDialogGUI_eq env parameters s
  have hnocmd : ∀ c, Call.command c ∉ setup := by
    intro c hc
    have h := not_mem_preamble hpre parameters (.command c) rfl rfl
    simp [hsetup, h.1, h.2] at hc
  have hempty : cmd.isEmpty = true := by
    obtain ⟨c, hc, hce⟩ := hcommand
    rw [heq] at hc
    by_cases hempty : cmd.isEmpty = true
    · exact hempty
    · rw [if_neg hempty, calls_of_effects] at hc
      simp [Effect.call?, hnocmd] at hc
      rw [← hc]
      exact hce
  rw [heq, if_pos hempty]
  refine ⟨rfl, rfl, ?_, ?_⟩
  · have h := not_mem_preamble hpre parameters .startProcessing rfl rfl
    simp [calls_of_effects, hsetup, Effect.call?, h.1, h.2]
  · intro windowed status
    have h := not_mem_preamble hpre parameters (.exec windowed status) rfl rfl
    simp [calls_of_effects, hsetup, Effect.call?, h.1, h.2]

/-- Instance: a bundle that does carry a command, while the processor holds none at the moment
it is asked (and would hold one later in the process). -/
theorem launchPlugin_progress_dialog_without_command_witness :
    (∃ cmd, Call.command cmd
        ∈ (launchPlugin emptyAtFirstEnv .ProgressDialogGUI (exampleParameters "blur 3")
            Process.start).run.calls ∧ cmd.isEmpty = true)
      ∧ (launchPlugin emptyAtFirstEnv .ProgressDialogGUI (exampleParameters "blur 3")
          Process.start).status = 0
      ∧ pluginDialogWasAccepted (launchPlugin emptyAtFirstEnv .ProgressDialogGUI
          (exampleParameters "blur 3") Process.start).process = false
      ∧ Call.startProcessing ∉ (launchPlugin emptyAtFirstEnv .ProgressDialogGUI
          (exampleParameters "blur 3") Process.start).run.calls
      ∧ ∀ windowed status,
          Call.exec windowed status ∉ (launchPlugin emptyAtFirstEnv .ProgressDialogGUI
            (exampleParameters "blur 3") Process.start).run.calls :=
  ⟨⟨"", by decide, rfl⟩,
    launchPlugin_progress_dialog_without_command emptyAtFirstEnv (exampleParameters "blur 3")
      Process.start ⟨"", by decide, rfl⟩⟩

/-- The final `return 0;` (line 176) is reached without any assignment to the flag: an
interface mode other than the three enumerators leaves the flag as the previous call left it. -/
theorem launchPlugin_unlisted_flag (env : Env) (parameters : PluginParameters) (s : Process) :
    pluginDialogWasAccepted (launchPlugin env .unlisted parameters s).process
      = pluginDialogWasAccepted s := by
  obtain ⟨pre, -, heq⟩ := launchPlugin_unlisted_eq env parameters s
  rw [heq]
  rfl

/-- C2, evaluated where it fails: a second call whose interface mode is none of the
three enumerators returns 0 and reports the acceptance of the first call, accepted in one
process and cancelled in the other, although the second call is the same in both. -/
theorem stale_acceptance_after_unlisted_mode :
    pluginDialogWasAccepted
        (launchPlugin (exampleEnv "" true) .unlisted (exampleParameters "")
          (launchPlugin (exampleEnv "" true) .FullGUI (exampleParameters "")
            Process.start).process).process = true
      ∧ pluginDialogWasAccepted
        (launchPlugin (exampleEnv "" true) .unlisted (exampleParameters "")
          (launchPlugin (exampleEnv "" false) .FullGUI (exampleParameters "")
            Process.start).process).process = false
      ∧ (launchPlugin (exampleEnv "" true) .unlisted (exampleParameters "")
          (launchPlugin (exampleEnv "" true) .FullGUI (exampleParameters "")
            Process.start).process).status = 0
      ∧ (launchPlugin (exampleEnv "" true) .unlisted (exampleParameters "")
          (launchPlugin (exampleEnv "" false) .FullGUI (exampleParameters "")
            Process.start).process).status = 0 := by
  refine ⟨?_, ?_, ?_, ?_⟩ <;> rfl


theorem calls_of_calls (flag : Bool) (past : List Call) (setup : List Call) :
    Run.calls { pluginProcessingValidAndAccepted := flag, past := past,
                effects := setup.map Effect.call } = setup := by
  unfold Run.calls
  rw [List.filterMap_map]
  exact filterMap_call_map setup

theorem platform_call_kinds (c : Call) (h : c.isPlatformCall = true) :
    c.isDisableMode = false ∧ c.isConstruction = false ∧ c.isExec = false := by
  cases c <;> simp_all [Call.isPlatformCall, Call.isDisableMode, Call.isConstruction, Call.isExec]

theorem disable_call_kinds (c : Call) (h : c.isDisableMode = true) :
    c.isPlatformCall = false ∧ c.isConstruction = false ∧ c.isExec = false := by
  cases c <;> simp_all [Call.isPlatformCall, Call.isDisableMode, Call.isConstruction, Call.isExec]

/-- C3: in every interface mode the collaborator calls of `launchPlugin` contain, as one
contiguous block, `disableInputMode` for each entry of `disabledInputModes`, then
`disableOutputMode` for each entry of `disabledOutputModes`, then `disablePreviewMode` for each
entry of `disabledPreviewModes`, in list order; no other mode-disabling call is made, and
nothing is constructed before the block. -/
theorem disableModes_calls_precede_constructions (env : Env) (interfaceMode : UserInterfaceMode)
    (parameters : PluginParameters) (s : Process) :
    ∃ before after : List Call,
      (launchPlugin env interfaceMode parameters s).run.calls
          = before
            ++ (parameters.disabledInputModes.map Call.disableInputMode
                ++ parameters.disabledOutputModes.map Call.disableOutputMode
                ++ parameters.disabledPreviewModes.map Call.disablePreviewMode)
            ++ after
        ∧ (∀ c ∈ before, c.isDisableMode = false ∧ c.isConstruction = false)
        ∧ (∀ c ∈ after, c.isDisableMode = false) := by
  cases interfaceMode with
  | NoGUI =>
    obtain ⟨argv0, pre, setup, m, status, completed, hpre, hsetup, -, -, heq⟩ :=
      launchPlugin_NoGUI_eq env parameters s
    rw [heq, calls_of_effects, hsetup, List.append_assoc]
    refine ⟨pre, _, rfl, fun c hc => ?_, ?_⟩
    · exact ⟨(platform_call_kinds c (hpre c hc)).1, (platform_call_kinds c (hpre c hc)).2.1⟩
    · simp [Effect.call?, Call.isDisableMode]
  | ProgressDialogGUI =>
    obtain ⟨argv0, pre, setup, m, cmd, status, completed, hpre, hsetup, -, -, -, heq⟩ :=
      launchPlugin_ProgressDialogGUI_eq env parameters s
    rw [heq]
    split <;> rw [calls_of_effects, hsetup, List.append_assoc]
    · refine ⟨pre, _, rfl, fun c hc => ?_, ?_⟩
      · exact ⟨(platform_call_kinds c (hpre c hc)).1, (platform_call_kinds c (hpre c hc)).2.1⟩
      · simp [Effect.call?, Call.isDisableMode]
    · refine ⟨pre, _, rfl, fun c hc => ?_, ?_⟩
      · exact ⟨(platform_call_kinds c (hpre c hc)).1, (platform_call_kinds c (hpre c hc)).2.1⟩
      · simp [Effect.call?, Call.isDisableMode]
  | FullGUI =>
    obtain ⟨argv0, pre, setup, maximized, status, accepted, hpre, -, hsetup, -, -, heq⟩ :=
      launchPlugin_FullGUI_eq env parameters s
    rw [heq, calls_of_effects, hsetup, List.append_assoc]
    refine ⟨pre, _, rfl, fun c hc => ?_, ?_⟩
    · exact ⟨(platform_call_kinds c (hpre c hc)).1, (platform_call_kinds c (hpre c hc)).2.1⟩
    · cases maximized <;> simp [Effect.call?, Call.isDisableMode]
  | unlisted =>
    obtain ⟨pre, hpre, heq⟩ := launchPlugin_unlisted_eq env parameters s
    rw [heq, calls_of_calls]
    refine ⟨pre, [], ?_, fun c hc => ?_, by simp⟩
    · simp [disableCalls]
    · exact ⟨(platform_call_kinds c (hpre c hc)).1, (platform_call_kinds c (hpre c hc)).2.1⟩

/-- C4: in `NoGUI` mode, for every parameter bundle (an empty command included), the objects
`launchPlugin` constructs are exactly a `QCoreApplication` and then a `HeadlessProcessor`:
no `QApplication`, `ProgressInfoWindow` or `MainWindow` is constructed and no window is
shown. -/
theorem launchPlugin_NoGUI_constructs_no_window (env : Env) (parameters : PluginParameters)
    (s : Process) :
    (∃ argv : List String,
        (launchPlugin env .NoGUI parameters s).run.calls.filter Call.isConstruction
          = [.newQCoreApplication 1 argv,
             .newHeadlessProcessor (c_str parameters.command) parameters.inputMode
               parameters.outputMode])
      ∧ (∀ argc argv,
          Call.newQApplication argc argv ∉ (launchPlugin env .NoGUI parameters s).run.calls)
      ∧ Call.newProgressInfoWindow ∉ (launchPlugin env .NoGUI parameters s).run.calls
      ∧ Call.newMainWindow ∉ (launchPlugin env .NoGUI parameters s).run.calls
      ∧ Call.showWindow ∉ (launchPlugin env .NoGUI parameters s).run.calls
      ∧ Call.showMaximized ∉ (launchPlugin env .NoGUI parameters s).run.calls := by
  obtain ⟨argv0, pre, setup, m, status, completed, hpre, hsetup, -, -, heq⟩ :=
    launchPlugin_NoGUI_eq env parameters s
  rw [heq, calls_of_effects, hsetup]
  have hfpre : pre.filter Call.isConstruction = [] :=
    List.filter_eq_nil_iff.mpr fun c hc => by simp [(platform_call_kinds c (hpre c hc)).2.1]
  have hfdis : (disableCalls parameters).filter Call.isConstruction = [] :=
    List.filter_eq_nil_iff.mpr fun c hc => by
      simp [(disable_call_kinds c (disableCalls_isDisableMode parameters c hc)).2.1]
  refine ⟨⟨[argv0], ?_⟩, ?_, ?_, ?_, ?_, ?_⟩
  · simp [List.filter_append, hfpre, hfdis, Effect.call?, Call.isConstruction, List.filter_cons]
  · intro argc argv
    have h := not_mem_preamble hpre parameters (.newQApplication argc argv) rfl rfl
    simp [Effect.call?, h.1, h.2]
  · have h := not_mem_preamble hpre parameters .newProgressInfoWindow rfl rfl
    simp [Effect.call?, h.1, h.2]
  · have h := not_mem_preamble hpre parameters .newMainWindow rfl rfl
    simp [Effect.call?, h.1, h.2]
  · have h := not_mem_preamble hpre parameters .showWindow rfl rfl
    simp [Effect.call?, h.1, h.2]
  · have h := not_mem_preamble hpre parameters .showMaximized rfl rfl
    simp [Effect.call?, h.1, h.2]


/-- C5: after a call that ran the event loop, `pluginDialogWasAccepted()` is the completion
signal read right after the loop returned: `processingCompletedProperly()` of the processor
this call constructed in `NoGUI` and `ProgressDialogGUI` mode, `isAccepted()` of the main window
this call constructed in `FullGUI` mode. -/
theorem acceptance_is_completion_signal (env : Env) (parameters : PluginParameters) (s : Process) :
    AcceptanceReadAfterLoop (launchPlugin env .NoGUI parameters s) s
        (.processingCompletedProperly .headlessProcessor) env.processingCompletedProperly
        (.newHeadlessProcessor (c_str parameters.command) parameters.inputMode
          parameters.outputMode)
      ∧ ((∃ windowed status, Call.exec windowed status
            ∈ (launchPlugin env .ProgressDialogGUI parameters s).run.calls) →
          AcceptanceReadAfterLoop (launchPlugin env .ProgressDialogGUI parameters s) s
            (.processingCompletedProperly .processor) env.processingCompletedProperly
            .newHeadlessProcessorLast)
      ∧ AcceptanceReadAfterLoop (launchPlugin env .FullGUI parameters s) s
          .isAccepted env.isAccepted .newMainWindow := by
  refine ⟨?_, ?_, ?_⟩
  · obtain ⟨argv0, pre, setup, m, status, completed, hpre, hsetup, hstatus, hcompleted, heq⟩ :=
      launchPlugin_NoGUI_eq env parameters s
    rw [heq]
    refine ⟨setup, [.call (.destroy .headlessProcessor), .call (.destroy .coreApp)], false,
      status, ?_, ?_, ?_, hcompleted⟩
    · simp [Outcome.effects, pluginDialogWasAccepted, Outcome.process]
    · simp [hsetup]
    · intro c hc
      simp only [hsetup, List.mem_append] at hc
      rcases hc with (hc | hc) | hc
      · exact (platform_call_kinds c (hpre c hc)).2.2
      · exact (disable_call_kinds c (disableCalls_isDisableMode parameters c hc)).2.2
      · simp at hc
        rcases hc with rfl | rfl | rfl | rfl | rfl | rfl | rfl | rfl | rfl | rfl <;> rfl
  · obtain ⟨argv0, pre, setup, m, cmd, status, completed, hpre, hsetup, hcmd, hstatus,
      hcompleted, heq⟩ := launchPlugin_ProgressDialogGUI_eq env parameters s
    rw [heq]
    split
    · rintro ⟨windowed, st, hmem⟩
      exfalso
      have h := not_mem_preamble hpre parameters (.exec windowed st) rfl rfl
      simp [calls_of_effects, hsetup, Effect.call?, h.1, h.2] at hmem
    · intro _
      refine ⟨setup ++ [.command cmd, .startProcessing],
        [.call (.destroy .progressWindow), .call (.destroy .processor),
         .call (.destroy .guiApp)], true, status, ?_, ?_, ?_, ?_⟩
      · simp [Outcome.effects, pluginDialogWasAccepted, Outcome.process]
      · simp [hsetup]
      · intro c hc
        simp only [hsetup, List.mem_append] at hc
        rcases hc with ((hc | hc) | hc) | hc
        · exact (platform_call_kinds c (hpre c hc)).2.2
        · exact (disable_call_kinds c (disableCalls_isDisableMode parameters c hc)).2.2
        · simp at hc
          rcases hc with rfl | rfl | rfl | rfl | rfl | rfl | rfl | rfl | rfl | rfl | rfl | rfl <;>
            rfl
        · simp at hc
          rcases hc with rfl | rfl <;> rfl
      · simpa [pluginDialogWasAccepted, Outcome.process, List.append_assoc] using hcompleted
  · obtain ⟨argv0, pre, setup, maximized, status, accepted, hpre, -, hsetup, hstatus, haccepted,
      heq⟩ := launchPlugin_FullGUI_eq env parameters s
    rw [heq]
    refine ⟨setup, [.call (.destroy .mainWindow), .call (.destroy .guiApp)], true, status,
      ?_, ?_, ?_, haccepted⟩
    · simp [Outcome.effects, pluginDialogWasAccepted, Outcome.process]
    · simp [hsetup]
    · intro c hc
      simp only [hsetup, List.mem_append] at hc
      rcases hc with (hc | hc) | hc
      · exact (platform_call_kinds c (hpre c hc)).2.2
      · exact (disable_call_kinds c (disableCalls_isDisableMode parameters c hc)).2.2
      · simp at hc
        rcases hc with rfl | rfl | rfl | rfl | rfl | rfl | rfl | rfl | rfl | rfl | rfl
        all_goals first | rfl | (cases maximized <;> rfl)


/-- Lines 86-131 never enter the event loop. -/
theorem preamble_no_exec {pre : List Call} (hpre : ∀ c ∈ pre, c.isPlatformCall = true)
    (p : PluginParameters) (c : Call) (hc : c ∈ pre ++ disableCalls p) : c.isExec = false := by
  rcases List.mem_append.mp hc with hc | hc
  · exact (platform_call_kinds c (hpre c hc)).2.2
  · exact (disable_call_kinds c (disableCalls_isDisableMode p c hc)).2.2

/-- C6: when `launchPlugin` enters the event loop (`NoGUI`, `FullGUI`, and `ProgressDialogGUI`
with a non-empty processor command) it enters it once and returns exactly the status `exec()`
returned; in every other case (the `ProgressDialogGUI` short-circuit, an interface mode that is
none of the three) it never enters the loop and returns 0. -/
theorem status_is_event_loop_status (env : Env) (interfaceMode : UserInterfaceMode)
    (parameters : PluginParameters) (s : Process) :
    ((interfaceMode = .NoGUI ∨ interfaceMode = .FullGUI
        ∨ (interfaceMode = .ProgressDialogGUI
            ∧ ∃ cmd, Call.command cmd ∈ (launchPlugin env interfaceMode parameters s).run.calls
                ∧ cmd.isEmpty = false)) →
      ∃ (before after : List Call) (windowed : Bool),
        (launchPlugin env interfaceMode parameters s).run.calls
            = before
              ++ [.exec windowed (launchPlugin env interfaceMode parameters s).status]
              ++ after
          ∧ (launchPlugin env interfaceMode parameters s).status = env.exec (s.history ++ before)
          ∧ (∀ c ∈ before, c.isExec = false) ∧ (∀ c ∈ after, c.isExec = false))
      ∧ (¬ (interfaceMode = .NoGUI ∨ interfaceMode = .FullGUI
          ∨ (interfaceMode = .ProgressDialogGUI
              ∧ ∃ cmd, Call.command cmd ∈ (launchPlugin env interfaceMode parameters s).run.calls
                  ∧ cmd.isEmpty = false)) →
        (launchPlugin env interfaceMode parameters s).status = 0
          ∧ ∀ c ∈ (launchPlugin env interfaceMode parameters s).run.calls, c.isExec = false) := by
  cases interfaceMode with
  | NoGUI =>
    obtain ⟨argv0, pre, setup, m, status, completed, hpre, hsetup, hstatus, -, heq⟩ :=
      launchPlugin_NoGUI_eq env parameters s
    rw [heq, calls_of_effects]
    refine ⟨fun _ => ⟨setup, [.processingCompletedProperly .headlessProcessor completed,
      .destroy .headlessProcessor, .destroy .coreApp], false, ?_, hstatus, ?_, ?_⟩, ?_⟩
    · simp [Effect.call?]
    · intro c hc
      rw [hsetup] at hc
      rcases List.mem_append.mp hc with hc | hc
      · exact preamble_no_exec hpre parameters c hc
      · simp at hc
        rcases hc with rfl | rfl | rfl | rfl | rfl | rfl | rfl | rfl | rfl | rfl <;> rfl
    · intro c hc
      simp at hc
      rcases hc with rfl | rfl | rfl <;> rfl
    · intro h
      exact absurd (Or.inl rfl) h
  | ProgressDialogGUI =>
    obtain ⟨argv0, pre, setup, m, cmd, status, completed, hpre, hsetup, hcmd, hstatus, -, heq⟩ :=
      launchPlugin_ProgressDialogGUI_eq env parameters s
    have hnocmd : ∀ c, Call.command c ∉ setup := by
      intro c hc
      rw [hsetup] at hc
      rcases List.mem_append.mp hc with hc | hc
      · have h := not_mem_preamble hpre parameters (.command c) rfl rfl
        rcases List.mem_append.mp hc with hc | hc
        · exact h.1 hc
        · exact h.2 hc
      · simp at hc
    have hsetupexec : ∀ c ∈ setup, c.isExec = false := by
      intro c hc
      rw [hsetup] at hc
      rcases List.mem_append.mp hc with hc | hc
      · exact preamble_no_exec hpre parameters c hc
      · simp at hc
        rcases hc with rfl | rfl | rfl | rfl | rfl | rfl | rfl | rfl | rfl | rfl | rfl | rfl <;>
          rfl
    rw [heq]
    by_cases hempty : cmd.isEmpty = true
    · rw [if_pos hempty, calls_of_effects]
      refine ⟨?_, fun _ => ⟨rfl, ?_⟩⟩
      · rintro (h | h | ⟨-, c, hc, hne⟩)
        · exact absurd h (by decide)
        · exact absurd h (by decide)
        · exfalso
          simp [Effect.call?, hnocmd] at hc
          rw [hc, hempty] at hne
          exact Bool.noConfusion hne
      · intro c hc
        rcases List.mem_append.mp hc with hc | hc
        · exact hsetupexec c hc
        · simp [Effect.call?] at hc
          rcases hc with rfl | rfl | rfl | rfl <;> rfl
    · rw [if_neg hempty, calls_of_effects]
      refine ⟨fun _ => ⟨setup ++ [.command cmd, .startProcessing],
        [.processingCompletedProperly .processor completed,
         .destroy .progressWindow, .destroy .processor, .destroy .guiApp], true, ?_, ?_, ?_, ?_⟩,
        ?_⟩
      · simp [Effect.call?]
      · simpa [List.append_assoc] using hstatus
      · intro c hc
        rcases List.mem_append.mp hc with hc | hc
        · exact hsetupexec c hc
        · simp at hc
          rcases hc with rfl | rfl <;> rfl
      · intro c hc
        simp at hc
        rcases hc with rfl | rfl | rfl | rfl <;> rfl
      · intro h
        exfalso
        apply h
        refine Or.inr (Or.inr ⟨rfl, cmd, ?_, by simpa using hempty⟩)
        simp [Effect.call?]
  | FullGUI =>
    obtain ⟨argv0, pre, setup, maximized, status, accepted, hpre, -, hsetup, hstatus, -, heq⟩ :=
      launchPlugin_FullGUI_eq env parameters s
    rw [heq, calls_of_effects]
    refine ⟨fun _ => ⟨setup, [.isAccepted accepted, .destroy .mainWindow, .destroy .guiApp],
      true, ?_, hstatus, ?_, ?_⟩, ?_⟩
    · simp [Effect.call?]
    · intro c hc
      rw [hsetup] at hc
      rcases List.mem_append.mp hc with hc | hc
      · exact preamble_no_exec hpre parameters c hc
      · simp at hc
        rcases hc with rfl | rfl | rfl | rfl | rfl | rfl | rfl | rfl | rfl | rfl | rfl
        all_goals first | rfl | (cases maximized <;> rfl)
    · intro c hc
      simp at hc
      rcases hc with rfl | rfl | rfl <;> rfl
    · intro h
      exact absurd (Or.inr (Or.inl rfl)) h
  | unlisted =>
    obtain ⟨pre, hpre, heq⟩ := launchPlugin_unlisted_eq env parameters s
    rw [heq, calls_of_calls]
    refine ⟨?_, fun _ => ⟨rfl, preamble_no_exec hpre parameters⟩⟩
    rintro (h | h | ⟨h, -⟩) <;> exact absurd h (by decide)


/-- Counterexample to "every call assigns the flag exactly once, as its last effect": a call
whose interface mode is none of the three enumerators performs no assignment to the flag at
all, and a `FullGUI` call ends with the destructors of `mainWindow` and `app`, which run after
the assignment. -/
theorem not_assigned_once_as_last_effect :
    ¬ AssignsOnceAsLastEffect
        (launchPlugin (exampleEnv "" true) .unlisted (exampleParameters "") Process.start)
      ∧ ¬ AssignsOnceAsLastEffect
        (launchPlugin (exampleEnv "" true) .FullGUI (exampleParameters "") Process.start)
      ∧ (launchPlugin (exampleEnv "" true) .unlisted (exampleParameters "")
          Process.start).effects.filterMap Effect.assign? = []
      ∧ (launchPlugin (exampleEnv "" true) .FullGUI (exampleParameters "")
          Process.start).effects.getLast? = some (.call (.destroy .guiApp)) := by
  refine ⟨?_, ?_, rfl, rfl⟩
  · rintro ⟨before, value, h, -⟩
    have hl : (launchPlugin (exampleEnv "" true) .unlisted (exampleParameters "")
        Process.start).effects.getLast? = some (.call (.disablePreviewMode ⟨1⟩)) := rfl
    have hlast := congrArg List.getLast? h
    rw [List.getLast?_append, hl] at hlast
    have hlast' : some (Effect.call (.disablePreviewMode ⟨1⟩)) = some (Effect.assign value) :=
      hlast
    cases hlast'
  · rintro ⟨before, value, h, -⟩
    have hl : (launchPlugin (exampleEnv "" true) .FullGUI (exampleParameters "")
        Process.start).effects.getLast? = some (.call (.destroy .guiApp)) := rfl
    have hlast := congrArg List.getLast? h
    rw [List.getLast?_append, hl] at hlast
    have hlast' : some (Effect.call (.destroy .guiApp)) = some (Effect.assign value) := hlast
    cases hlast'

/-- C7, amended: the flag is false before the first call, and a call in one of the three
modes `NoGUI`, `ProgressDialogGUI`, `FullGUI` assigns the flag exactly once; after that
assignment the call performs nothing but the destructor calls of its automatic objects. -/
theorem flag_assigned_once_then_destructors (env : Env) (interfaceMode : UserInterfaceMode)
    (parameters : PluginParameters) (s : Process) (hmode : interfaceMode ≠ .unlisted) :
    pluginDialogWasAccepted Process.start = false
      ∧ ∃ (before : List Effect) (value : Bool) (after : List Effect),
          (launchPlugin env interfaceMode parameters s).effects
              = before ++ [.assign value] ++ after
            ∧ (∀ e ∈ before, e.assign? = none)
            ∧ (∀ e ∈ after, ∃ object, e = .call (.destroy object))
            ∧ after ≠ []
            ∧ pluginDialogWasAccepted (launchPlugin env interfaceMode parameters s).process
                = value := by
  refine ⟨rfl, ?_⟩
  cases interfaceMode with
  | NoGUI =>
    obtain ⟨argv0, pre, setup, m, status, completed, -, -, -, -, heq⟩ :=
      launchPlugin_NoGUI_eq env parameters s
    rw [heq]
    refine ⟨setup.map Effect.call ++ [.call (.exec false status),
        .call (.processingCompletedProperly .headlessProcessor completed)], completed,
      [.call (.destroy .headlessProcessor), .call (.destroy .coreApp)], ?_, ?_, ?_, ?_, rfl⟩
    · simp [Outcome.effects]
    · intro e he
      simp at he
      rcases he with ⟨c, -, rfl⟩ | rfl | rfl <;> rfl
    · intro e he
      simp at he
      rcases he with rfl | rfl <;> exact ⟨_, rfl⟩
    · simp
  | ProgressDialogGUI =>
    obtain ⟨argv0, pre, setup, m, cmd, status, completed, -, -, -, -, -, heq⟩ :=
      launchPlugin_ProgressDialogGUI_eq env parameters s
    rw [heq]
    split
    · refine ⟨setup.map Effect.call ++ [.call (.command cmd)], false,
        [.call (.destroy .progressWindow), .call (.destroy .processor),
         .call (.destroy .guiApp)], ?_, ?_, ?_, ?_, rfl⟩
      · simp [Outcome.effects]
      · intro e he
        simp at he
        rcases he with ⟨c, -, rfl⟩ | rfl <;> rfl
      · intro e he
        simp at he
        rcases he with rfl | rfl | rfl <;> exact ⟨_, rfl⟩
      · simp
    · refine ⟨setup.map Effect.call ++ [.call (.command cmd), .call .startProcessing,
          .call (.exec true status), .call (.processingCompletedProperly .processor completed)],
        completed,
        [.call (.destroy .progressWindow), .call (.destroy .processor),
         .call (.destroy .guiApp)], ?_, ?_, ?_, ?_, rfl⟩
      · simp [Outcome.effects]
      · intro e he
        simp at he
        rcases he with ⟨c, -, rfl⟩ | rfl | rfl | rfl | rfl <;> rfl
      · intro e he
        simp at he
        rcases he with rfl | rfl | rfl <;> exact ⟨_, rfl⟩
      · simp
  | FullGUI =>
    obtain ⟨argv0, pre, setup, maximized, status, accepted, -, -, -, -, -, heq⟩ :=
      launchPlugin_FullGUI_eq env parameters s
    rw [heq]
    refine ⟨setup.map Effect.call ++ [.call (.exec true status), .call (.isAccepted accepted)],
      accepted, [.call (.destroy .mainWindow), .call (.destroy .guiApp)], ?_, ?_, ?_, ?_, rfl⟩
    · simp [Outcome.effects]
    · intro e he
      simp at he
      rcases he with ⟨c, -, rfl⟩ | rfl | rfl <;> rfl
    · intro e he
      simp at he
      rcases he with rfl | rfl <;> exact ⟨_, rfl⟩
    · simp
  | unlisted => exact absurd rfl hmode

/-- Instance: a `FullGUI` call in a fresh process. -/
theorem flag_assigned_once_then_destructors_witness :
    UserInterfaceMode.FullGUI ≠ UserInterfaceMode.unlisted
      ∧ pluginDialogWasAccepted Process.start = false
      ∧ ∃ (before : List Effect) (value : Bool) (after : List Effect),
          (launchPlugin (exampleEnv "" true) .FullGUI (exampleParameters "") Process.start).effects
              = before ++ [.assign value] ++ after
            ∧ (∀ e ∈ before, e.assign? = none)
            ∧ (∀ e ∈ after, ∃ object, e = .call (.destroy object))
            ∧ after ≠ []
            ∧ pluginDialogWasAccepted
                (launchPlugin (exampleEnv "" true) .FullGUI (exampleParameters "")
                  Process.start).process = value :=
  ⟨by decide,
    flag_assigned_once_then_destructors (exampleEnv "" true) .FullGUI (exampleParameters "")
      Process.start (by decide)⟩


/-- C8: in `NoGUI` mode `launchPlugin` never calls `startProcessing` itself; it schedules it
once, by `QTimer::singleShot(0, &headlessProcessor, SLOT(startProcessing()))`, after the
application object and the processor are constructed, and the very next call enters the event
loop. -/
theorem NoGUI_defers_startProcessing (env : Env) (parameters : PluginParameters) (s : Process) :
    Call.startProcessing ∉ (launchPlugin env .NoGUI parameters s).run.calls
      ∧ ∃ (before after : List Call) (argv : List String) (status : Int),
          (launchPlugin env .NoGUI parameters s).run.calls
              = before
                ++ [.singleShot 0 .headlessProcessor "startProcessing()", .exec false status]
                ++ after
            ∧ Call.newQCoreApplication 1 argv ∈ before
            ∧ Call.newHeadlessProcessor (c_str parameters.command) parameters.inputMode
                parameters.outputMode ∈ before
            ∧ (∀ c ∈ before, c.isExec = false)
            ∧ (∀ c ∈ before ++ after, ∀ msec receiver member,
                c ≠ Call.singleShot msec receiver member) := by
  obtain ⟨argv0, pre, setup, m, status, completed, hpre, hsetup, -, -, heq⟩ :=
    launchPlugin_NoGUI_eq env parameters s
  rw [heq, calls_of_effects, hsetup]
  refine ⟨?_, pre ++ disableCalls parameters ++
      [.newQCoreApplication 1 [argv0], .setOrganizationName env.organisationName,
       .setOrganizationDomain env.organisationDomain, .setApplicationName env.applicationName,
       .setAttributeDontUseNativeMenuBar, .loadSettings .NonGuiApplication,
       .outputMessageMode m, .loggerSetMode m,
       .newHeadlessProcessor (c_str parameters.command) parameters.inputMode
         parameters.outputMode],
    [.processingCompletedProperly .headlessProcessor completed, .destroy .headlessProcessor,
     .destroy .coreApp], [argv0], status, ?_, ?_, ?_, ?_, ?_⟩
  · have h := not_mem_preamble hpre parameters .startProcessing rfl rfl
    simp [Effect.call?, h.1, h.2]
  · simp [Effect.call?]
  · simp
  · simp
  · intro c hc
    rcases List.mem_append.mp hc with hc | hc
    · exact preamble_no_exec hpre parameters c hc
    · simp at hc
      rcases hc with rfl | rfl | rfl | rfl | rfl | rfl | rfl | rfl | rfl <;> rfl
  · intro c hc msec receiver member heq'
    subst heq'
    have h := not_mem_preamble hpre parameters (.singleShot msec receiver member) rfl rfl
    simp [h.1, h.2] at hc

/-- C9: in `ProgressDialogGUI` mode two bundles that agree on the three disabled-mode lists
give, with the same collaborators and from the same state, the same outcome (same effects in
the same order, same status, same flag), whatever their `command`, `inputMode`, `outputMode`
and `previewMode`; the call starts processing exactly when `command()` of the processor is
non-empty. -/
theorem ProgressDialogGUI_ignores_command (env : Env) (parameters parameters' : PluginParameters)
    (s : Process)
    (hinput : parameters.disabledInputModes = parameters'.disabledInputModes)
    (houtput : parameters.disabledOutputModes = parameters'.disabledOutputModes)
    (hpreview : parameters.disabledPreviewModes = parameters'.disabledPreviewModes) :
    launchPlugin env .ProgressDialogGUI parameters s
        = launchPlugin env .ProgressDialogGUI parameters' s
      ∧ ∃ (before after : List Call),
          (launchPlugin env .ProgressDialogGUI parameters s).run.calls
              = before ++ [.command (env.command (s.history ++ before))] ++ after
            ∧ (∀ c ∈ before, ∀ cmd, c ≠ Call.command cmd)
            ∧ (Call.startProcessing ∈ (launchPlugin env .ProgressDialogGUI parameters s).run.calls
                ↔ (env.command (s.history ++ before)).isEmpty = false) := by
  constructor
  · unfold launchPlugin
    rw [hinput, houtput, hpreview]
  · obtain ⟨argv0, pre, setup, m, cmd, status, completed, hpre, hsetup, hcmd, -, -, heq⟩ :=
      launchPlugin_ProgressDialogGUI_eq env parameters s
    have hnocmd : ∀ c ∈ setup, ∀ cmd, c ≠ Call.command cmd := by
      intro c hc cmd' heq'
      subst heq'
      have h := not_mem_preamble hpre parameters (.command cmd') rfl rfl
      simp [hsetup, h.1, h.2] at hc
    have hnostart : Call.startProcessing ∉ setup := by
      intro hc
      have h := not_mem_preamble hpre parameters .startProcessing rfl rfl
      simp [hsetup, h.1, h.2] at hc
    rw [heq]
    by_cases hempty : cmd.isEmpty = true
    · rw [if_pos hempty, calls_of_effects]
      refine ⟨setup, [.destroy .progressWindow, .destroy .processor, .destroy .guiApp],
        ?_, hnocmd, ?_⟩
      · simp [Effect.call?, ← hcmd]
      · rw [← hcmd, hempty]
        simp [Effect.call?, hnostart]
    · rw [if_neg hempty, calls_of_effects]
      refine ⟨setup, [.startProcessing, .exec true status,
        .processingCompletedProperly .processor completed,
        .destroy .progressWindow, .destroy .processor, .destroy .guiApp], ?_, hnocmd, ?_⟩
      · simp [Effect.call?, ← hcmd]
      · rw [← hcmd]
        simp [Effect.call?, hempty]

/-- Instance: two bundles that differ in `command`, `inputMode`, `outputMode` and
`previewMode`. -/
theorem ProgressDialogGUI_ignores_command_witness :
    (exampleParameters "blur 3").disabledInputModes = otherParameters.disabledInputModes
      ∧ (exampleParameters "blur 3").disabledOutputModes = otherParameters.disabledOutputModes
      ∧ (exampleParameters "blur 3").disabledPreviewModes = otherParameters.disabledPreviewModes
      ∧ (exampleParameters "blur 3").command ≠ otherParameters.command
      ∧ launchPlugin (exampleEnv "sharpen 1" true) .ProgressDialogGUI (exampleParameters "blur 3")
            Process.start
          = launchPlugin (exampleEnv "sharpen 1" true) .ProgressDialogGUI otherParameters
              Process.start :=
  ⟨rfl, rfl, rfl, by decide,
    (ProgressDialogGUI_ignores_command (exampleEnv "sharpen 1" true) (exampleParameters "blur 3")
      otherParameters Process.start rfl rfl rfl).1⟩

/-! ## Decimal rendering -/

theorem decodeDigits_concat (l : List Char) (c : Char) :
    decodeDigits (l ++ [c]) = 10 * decodeDigits l + digitValue c := by
  simp [decodeDigits, List.foldl_append]

theorem digitValue_digitChar (k : Nat) (hk : k < 10) : digitValue (Nat.digitChar k) = k := by
  interval_cases k <;> rfl

theorem digitChar_ne_dot (k : Nat) (hk : k < 10) : Nat.digitChar k ≠ Char.ofNat 46 := by
  interval_cases k <;> decide

theorem digitChar_isDigit (k : Nat) (hk : k < 10) : (Nat.digitChar k).isDigit = true := by
  interval_cases k <;> decide

theorem digitChar_ne_zero (k : Nat) (hk : k < 10) (hpos : k ≠ 0) :
    Nat.digitChar k ≠ Char.ofNat 48 := by
  interval_cases k <;> first | exact absurd rfl hpos | decide

/-- What `Nat.toDigitsCore` puts in front of its accumulator, with enough fuel: the canonical
decimal numeral of `n`. -/
theorem toDigitsCore_spec (fuel : Nat) :
    ∀ (n : Nat) (ds : List Char), n < fuel →
      ∃ pre : List Char, Nat.toDigitsCore 10 fuel n ds = pre ++ ds ∧ decodeDigits pre = n
        ∧ (∀ c ∈ pre, c ≠ Char.ofNat 46)
        ∧ (∀ c ∈ pre, c.isDigit = true)
        ∧ pre ≠ []
        ∧ (n = 0 → pre = [Char.ofNat 48])
        ∧ (n ≠ 0 → pre.head? ≠ some (Char.ofNat 48)) := by
  induction fuel with
  | zero => intro n ds h; exact absurd h (Nat.not_lt_zero n)
  | succ fuel ih =>
    intro n ds h
    have hmod : n % 10 < 10 := Nat.mod_lt n (by decide)
    by_cases hdiv : n / 10 = 0
    · have hn : n % 10 = n := by omega
      refine ⟨[Nat.digitChar (n % 10)], ?_, ?_, ?_, ?_, ?_, ?_, ?_⟩
      · simp [Nat.toDigitsCore, hdiv]
      · have : decodeDigits [Nat.digitChar (n % 10)] = digitValue (Nat.digitChar (n % 10)) := by
          simp [decodeDigits]
        rw [this, digitValue_digitChar _ hmod]
        omega
      · intro c hc
        rw [List.mem_singleton] at hc
        rw [hc]
        exact digitChar_ne_dot _ hmod
      · intro c hc
        rw [List.mem_singleton] at hc
        rw [hc]
        exact digitChar_isDigit _ hmod
      · simp
      · intro h0
        rw [h0]
        rfl
      · intro h0
        rw [hn]
        simp only [List.head?_cons, ne_eq, Option.some.injEq]
        exact digitChar_ne_zero n (by omega) h0
    · have hlt : n / 10 < fuel := by omega
      obtain ⟨pre, hpre, hval, hdot, hdig, hne, -, hlead⟩ :=
        ih (n / 10) (Nat.digitChar (n % 10) :: ds) hlt
      refine ⟨pre ++ [Nat.digitChar (n % 10)], ?_, ?_, ?_, ?_, ?_, ?_, ?_⟩
      · simp [Nat.toDigitsCore, hdiv, hpre]
      · rw [decodeDigits_concat, hval, digitValue_digitChar _ hmod]
        omega
      · intro c hc
        rcases List.mem_append.mp hc with hc | hc
        · exact hdot c hc
        · rw [List.mem_singleton] at hc
          rw [hc]
          exact digitChar_ne_dot _ hmod
      · intro c hc
        rcases List.mem_append.mp hc with hc | hc
        · exact hdig c hc
        · rw [List.mem_singleton] at hc
          rw [hc]
          exact digitChar_isDigit _ hmod
      · simp
      · intro h0
        rw [h0] at hdiv
        exact absurd rfl hdiv
      · intro _
        cases pre with
        | nil => exact absurd rfl hne
        | cons x pre => simpa using hlead hdiv

/-- The decimal rendering of a natural number decodes back to it, contains no dot, and is a
canonical numeral. -/
theorem repr_spec (n : Nat) :
    decodeDigits (Nat.repr n).data = n ∧ (∀ c ∈ (Nat.repr n).data, c ≠ Char.ofNat 46)
      ∧ isNumeral (Nat.repr n).data = true := by
  obtain ⟨pre, hpre, hval, hdot, hdig, hne, hzero, hlead⟩ :=
    toDigitsCore_spec (n + 1) n [] (Nat.lt_succ_self n)
  have h : (Nat.repr n).data = pre := by
    simp [Nat.repr, Nat.toDigits, hpre, List.asString]
  rw [h]
  refine ⟨hval, hdot, ?_⟩
  by_cases h0 : n = 0
  · rw [hzero h0]
    decide
  · cases pre with
    | nil => exact absurd rfl hne
    | cons x pre =>
      have hx : x ≠ Char.ofNat 48 := by simpa using hlead h0
      have hall : ∀ c ∈ x :: pre, c.isDigit = true := hdig
      simp only [List.mem_cons, forall_eq_or_imp] at hall
      simp [isNumeral, hall.1, hx]
      exact hall.2

theorem splitAtDots_of_no_dot (a : List Char) (ha : ∀ c ∈ a, c ≠ Char.ofNat 46) :
    splitAtDots a = [a] := by
  induction a with
  | nil => rfl
  | cons x a ih =>
    have hx : x ≠ Char.ofNat 46 := ha x (List.mem_cons_self x a)
    simp [splitAtDots, hx, ih (fun c hc => ha c (List.mem_cons_of_mem x hc))]

theorem splitAtDots_append_dot (a r : List Char) (ha : ∀ c ∈ a, c ≠ Char.ofNat 46) :
    splitAtDots (a ++ Char.ofNat 46 :: r) = a :: splitAtDots r := by
  induction a with
  | nil => simp [splitAtDots]
  | cons x a ih =>
    have hx : x ≠ Char.ofNat 46 := ha x (List.mem_cons_self x a)
    simp [splitAtDots, hx, ih (fun c hc => ha c (List.mem_cons_of_mem x hc))]

theorem gmicVersionString_ofNat (n : Nat) :
    (gmicVersionString (n : Int)).data
      = (Nat.repr (n / 100)).data ++ Char.ofNat 46 :: ((Nat.repr (n / 10 % 10)).data
          ++ Char.ofNat 46 :: (Nat.repr (n % 10)).data) := by
  have h1 : toString ((n : Int).tdiv 100) = Nat.repr (n / 100) := rfl
  have h2 : toString (((n : Int).tdiv 10).tmod 10) = Nat.repr (n / 10 % 10) := rfl
  have h3 : toString ((n : Int).tmod 10) = Nat.repr (n % 10) := rfl
  unfold gmicVersionString
  rw [h1, h2, h3]
  simp [String.data_append]


/-- Reading back the version string of a natural version number gives its three components. -/
theorem readVersion_gmicVersionString_ofNat (n : Nat) :
    readVersion (gmicVersionString (n : Int)) = some (n / 100, n / 10 % 10, n % 10) := by
  obtain ⟨v1, d1, n1⟩ := repr_spec (n / 100)
  obtain ⟨v2, d2, n2⟩ := repr_spec (n / 10 % 10)
  obtain ⟨v3, d3, n3⟩ := repr_spec (n % 10)
  unfold readVersion
  rw [gmicVersionString_ofNat, splitAtDots_append_dot _ _ d1, splitAtDots_append_dot _ _ d2,
    splitAtDots_of_no_dot _ d3]
  simp [n1, n2, n3, v1, v2, v3]

theorem gmicVersionString_injective_ofNat (n m : Nat)
    (h : gmicVersionString (n : Int) = gmicVersionString (m : Int)) : n = m := by
  have hn := readVersion_gmicVersionString_ofNat n
  have hm := readVersion_gmicVersionString_ofNat m
  rw [h, hm] at hn
  simp only [Option.some.injEq, Prod.mk.injEq] at hn
  omega

/-- C10: for a non-negative `gmic_version` the text `gmicVersionString` produces is exactly
three decimal numerals separated by two dots, whose values are `v / 100`, `(v / 10) % 10` and
`v % 10`; these three numbers satisfy `100 * major + 10 * minor + patch = v` with `minor` and
`patch` between 0 and 9; and two different non-negative versions never give the same version
string. -/
theorem gmicVersionString_lossless (gmic_version : Int) (hv : 0 ≤ gmic_version) :
    readVersion (gmicVersionString gmic_version)
        = some ((gmic_version.tdiv 100).toNat, ((gmic_version.tdiv 10).tmod 10).toNat,
            (gmic_version.tmod 10).toNat)
      ∧ 0 ≤ gmic_version.tdiv 100
      ∧ 100 * gmic_version.tdiv 100 + 10 * (gmic_version.tdiv 10).tmod 10 + gmic_version.tmod 10
          = gmic_version
      ∧ 0 ≤ (gmic_version.tdiv 10).tmod 10 ∧ (gmic_version.tdiv 10).tmod 10 ≤ 9
      ∧ 0 ≤ gmic_version.tmod 10 ∧ gmic_version.tmod 10 ≤ 9
      ∧ ∀ other : Int, 0 ≤ other → gmicVersionString gmic_version = gmicVersionString other →
          gmic_version = other := by
  have h100 : gmic_version.tdiv 100 = gmic_version / 100 := Int.tdiv_eq_ediv hv (by decide)
  have h10 : gmic_version.tdiv 10 = gmic_version / 10 := Int.tdiv_eq_ediv hv (by decide)
  have hq : (0 : Int) ≤ gmic_version / 10 := Int.ediv_nonneg hv (by decide)
  have hminor : (gmic_version.tdiv 10).tmod 10 = gmic_version / 10 % 10 := by
    rw [h10]
    exact Int.tmod_eq_emod hq (by decide)
  have hpatch : gmic_version.tmod 10 = gmic_version % 10 := Int.tmod_eq_emod hv (by decide)
  refine ⟨?_, ?_, ?_, ?_, ?_, ?_, ?_, ?_⟩
  · obtain ⟨n, rfl⟩ := Int.eq_ofNat_of_zero_le hv
    exact readVersion_gmicVersionString_ofNat n
  · rw [h100]; omega
  · rw [h100, hminor, hpatch]; omega
  · rw [hminor]; omega
  · rw [hminor]; omega
  · rw [hpatch]; omega
  · rw [hpatch]; omega
  · intro other hother heq
    obtain ⟨n, rfl⟩ := Int.eq_ofNat_of_zero_le hv
    obtain ⟨m, rfl⟩ := Int.eq_ofNat_of_zero_le hother
    exact congrArg Int.ofNat (gmicVersionString_injective_ofNat n m heq)

/-- Instance: version 295, rendered "2.9.5" and read back as 2, 9, 5. -/
theorem gmicVersionString_lossless_witness :
    (0 : Int) ≤ 295
      ∧ gmicVersionString 295 = "2.9.5"
      ∧ readVersion (gmicVersionString 295) = some (2, 9, 5)
      ∧ 100 * (295 : Int).tdiv 100 + 10 * ((295 : Int).tdiv 10).tmod 10 + (295 : Int).tmod 10
          = 295
      ∧ ∀ other : Int, 0 ≤ other → gmicVersionString 295 = gmicVersionString other →
          295 = other :=
  ⟨by decide, by decide, (gmicVersionString_lossless 295 (by decide)).1,
    (gmicVersionString_lossless 295 (by decide)).2.2.1,
    (gmicVersionString_lossless 295 (by decide)).2.2.2.2.2.2.2⟩

end GmicQt
